import Mathlib

/-!
Shallow embedding of the release-catalog and activation subsystem of
`server.py` (NerdsCorp/game-update-server).

The embedding models:
* the JSON documents `data/versions.json` / `data/launcher_versions.json`
  as an optional JSON value per channel (`none` = file absent);
* the `downloads/` directory (the artifact store) as an association list
  from filename to byte content;
* each Flask route body as a pure function from the server state (plus the
  request data and, where the source performs fallible OS calls, a boolean
  oracle describing whether that call succeeds) to a response and a new state.

File-system calls that can fail in the source (`file.save`, `os.remove`)
are given an explicit success oracle; an exception in the source lands in
the route's `except` handler, which returns a 500 response without touching
anything further, and a failed call is modelled as leaving the state as it
was at that point.
-/

namespace Server

/-- JSON values, as produced by `json.dump` / consumed by `json.load`. -/
inductive Json where
  | str (s : String)
  | num (n : Int)
  | bool (b : Bool)
  | arr (elems : List Json)
  | obj (fields : List (String × Json))
  | null

/-- One release record: the dict constructed at `server.py:937-944` and
persisted in the per-channel JSON document. -/
structure Release where
  version : String
  download_url : String
  release_notes : String
  file_size : Nat
  release_date : String
  is_active : Bool
deriving Repr, DecidableEq

/-- Encoding of a release record to JSON, with the keys in the order the
source constructs the dict (`server.py:937-944`). -/
def releaseToJson (r : Release) : Json :=
  Json.obj [("version", Json.str r.version),
            ("download_url", Json.str r.download_url),
            ("release_notes", Json.str r.release_notes),
            ("file_size", Json.num (Int.ofNat r.file_size)),
            ("release_date", Json.str r.release_date),
            ("is_active", Json.bool r.is_active)]

/-- Lookup of a key in a JSON object, Python dict-style. -/
def jsonLookup (fields : List (String × Json)) (key : String) : Option Json :=
  (fields.find? (fun kv => kv.1 == key)).map (fun kv => kv.2)

/-- Decoding of one release record.  `version` and `download_url` are
indexed unconditionally in the source (`v['version']`, `v['download_url']`),
the remaining fields are read with `.get` defaults
(`v.get('is_active', False)`, `x.get('release_date', '')`,
`v.get('file_size', 0)`, `v.get('release_notes', '')`). -/
def decodeRelease (j : Json) : Option Release :=
  match j with
  | Json.obj fields =>
    match jsonLookup fields "version", jsonLookup fields "download_url" with
    | some (Json.str v), some (Json.str d) =>
      some { version := v
             download_url := d
             release_notes := (match jsonLookup fields "release_notes" with
                               | some (Json.str s) => s
                               | _ => "")
             file_size := (match jsonLookup fields "file_size" with
                           | some (Json.num n) => n.toNat
                           | _ => 0)
             release_date := (match jsonLookup fields "release_date" with
                              | some (Json.str s) => s
                              | _ => "")
             is_active := (match jsonLookup fields "is_active" with
                           | some (Json.bool b) => b
                           | _ => false) }
    | _, _ => none
  | _ => none

/-- Decoding of a whole catalog document (a JSON array of records). -/
def decodeCatalog (j : Json) : List Release :=
  match j with
  | Json.arr elems => elems.filterMap decodeRelease
  | _ => []

/-- The server's on-disk state: the two catalog documents and the contents
of the `downloads/` folder (filename, byte content). -/
structure ServerState where
  versionsFile : Option Json
  launcherFile : Option Json
  uploads : List (String × List Nat)

/-- `UPLOAD_FOLDER = 'downloads'` (`server.py:19`). -/
def UPLOAD_FOLDER : String := "downloads"

/-- `ALLOWED_EXTENSIONS = {'zip'}` (`server.py:22`). -/
def ALLOWED_EXTENSIONS : List String := ["zip"]

/-- Python's `str.strip()` with no argument: remove leading and trailing
whitespace. -/
def pyStrip (s : String) : String :=
  String.mk (((s.data.dropWhile Char.isWhitespace).reverse.dropWhile
    Char.isWhitespace).reverse)

/-- Python's `str.lower()` (the filenames here are ASCII). -/
def pyLower (s : String) : String :=
  String.mk (s.data.map Char.toLower)

/-- Python's `filename.rsplit('.', 1)[1]`: the suffix after the last dot
(meaningful when a dot is present). -/
def afterLastDot (s : String) : String :=
  String.mk ((s.data.reverse.takeWhile (fun c => c ≠ '.')).reverse)

/-- `allowed_file` (`server.py:127-128`):
`'.' in filename and filename.rsplit('.', 1)[1].lower() in ALLOWED_EXTENSIONS`. -/
def allowed_file (filename : String) : Bool :=
  filename.data.contains '.' &&
    ALLOWED_EXTENSIONS.contains (pyLower (afterLastDot filename))

/-- `load_versions` (`server.py:130-140`): the parsed content of
`data/versions.json`, or `[]` when the file is absent or unreadable. -/
def load_versions (st : ServerState) : List Release :=
  match st.versionsFile with
  | none => []
  | some j => decodeCatalog j

/-- `save_versions` (`server.py:142-146`): overwrites `data/versions.json`
in place with the JSON dump of the whole collection (a plain
`open(..., 'w')`, no temporary file, no rename, no lock). -/
def save_versions (st : ServerState) (versions : List Release) : ServerState :=
  { st with versionsFile := some (Json.arr (versions.map releaseToJson)) }

/-- `load_launcher_versions` (`server.py:164-174`). -/
def load_launcher_versions (st : ServerState) : List Release :=
  match st.launcherFile with
  | none => []
  | some j => decodeCatalog j

/-- `save_launcher_versions` (`server.py:176-180`): same in-place overwrite
for `data/launcher_versions.json`. -/
def save_launcher_versions (st : ServerState) (versions : List Release) : ServerState :=
  { st with launcherFile := some (Json.arr (versions.map releaseToJson)) }

/-- `get_active_version` (`server.py:148-154`). -/
def get_active_version (st : ServerState) : Option Release :=
  (load_versions st).find? (fun v => v.is_active)

/-- `get_active_launcher_version` (`server.py:156-162`). -/
def get_active_launcher_version (st : ServerState) : Option Release :=
  (load_launcher_versions st).find? (fun v => v.is_active)

/-- Whether `os.path.exists` holds for a name in the uploads folder. -/
def fileExists (files : List (String × List Nat)) (name : String) : Bool :=
  files.any (fun p => p.1 == name)

/-- `file.save(filepath)`: (over)writes one file in the uploads folder. -/
def putFile (files : List (String × List Nat)) (name : String)
    (content : List Nat) : List (String × List Nat) :=
  files.filter (fun p => p.1 ≠ name) ++ [(name, content)]

/-- `os.remove(filepath)`: drops one file from the uploads folder. -/
def removeFile (files : List (String × List Nat)) (name : String) :
    List (String × List Nat) :=
  files.filter (fun p => p.1 ≠ name)

/-- HTTP responses the routes return. -/
inductive Resp where
  | ok
  | badRequest (msg : String)
  | notFound (msg : String)
  | serverError (msg : String)
  | redirectLogin
deriving Repr, DecidableEq

/-- The secure filename generated at `server.py:922-926`: built from the
upload type and the version token only, never from the client filename. -/
def uploadFilename (upload_type version : String) : String :=
  if upload_type == "launcher" then "launcher-v" ++ version ++ ".zip"
  else "game-v" ++ version ++ ".zip"

/-- The deactivation pass `for v in versions: v['is_active'] = False`
(`server.py:977-978`). -/
def deactivateAll (l : List Release) : List Release :=
  l.map (fun v => { v with is_active := false })

/-- The catalog update a successful upload performs between load and save
(`server.py:971-981`): remove any entry with the same version, deactivate
every remaining entry, append the new record. -/
def uploadCompute (versions : List Release) (version_info : Release) : List Release :=
  deactivateAll (versions.filter (fun v => v.version ≠ version_info.version))
    ++ [version_info]

/-- `upload_game_version` (`server.py:900-994`), the `/api/upload` route.
Request data: whether the `game_file` part is present, its client-supplied
filename, its byte content, the `version`, `release_notes` and
`upload_type` form fields, the current UTC timestamp, and whether
`file.save` succeeds (an exception there is answered with a 500 before any
catalog access). -/
def upload_game_version (st : ServerState) (hasFile : Bool) (fname : String)
    (content : List Nat) (version_form : String) (release_notes : String)
    (upload_type : String) (now : String) (fileSaveOk : Bool) :
    Resp × ServerState :=
  if !hasFile then (Resp.badRequest "No file uploaded", st)
  else
    let version := pyStrip version_form
    if version == "" then (Resp.badRequest "Version is required", st)
    else if fname == "" then (Resp.badRequest "No file selected", st)
    else if !allowed_file fname then (Resp.badRequest "Only ZIP files are allowed", st)
    else
      let filename := uploadFilename upload_type version
      if !fileSaveOk then (Resp.serverError "Error uploading version", st)
      else
        let st1 := { st with uploads := putFile st.uploads filename content }
        let file_size := content.length
        let version_info : Release :=
          { version := version
            download_url := filename
            release_notes := release_notes
            file_size := file_size
            release_date := now
            is_active := true }
        if upload_type == "launcher" then
          (Resp.ok, save_launcher_versions st1
            (uploadCompute (load_launcher_versions st1) version_info))
        else
          (Resp.ok, save_versions st1
            (uploadCompute (load_versions st1) version_info))

/-- The re-activation step of `activate_version` (`server.py:1016-1017`):
after the deactivation pass, the first entry whose `version` matches (the
dict `target_version` aliases) is set active again. -/
def activateFirst : List Release → String → List Release
  | [], _ => []
  | v :: rest, version =>
    if v.version == version then { v with is_active := true } :: rest
    else v :: activateFirst rest version

/-- `activate_version` (`server.py:996-1024`). -/
def activate_version (st : ServerState) (version : String) : Resp × ServerState :=
  let versions := load_versions st
  if versions.any (fun v => v.version == version) then
    (Resp.ok, save_versions st (activateFirst (deactivateAll versions) version))
  else
    (Resp.notFound ("Version " ++ version ++ " not found"), st)

/-- `activate_launcher_version` (`server.py:1026-1054`). -/
def activate_launcher_version (st : ServerState) (version : String) :
    Resp × ServerState :=
  let versions := load_launcher_versions st
  if versions.any (fun v => v.version == version) then
    (Resp.ok, save_launcher_versions st (activateFirst (deactivateAll versions) version))
  else
    (Resp.notFound ("Launcher version " ++ version ++ " not found"), st)

/-- `delete_version` (`server.py:1056-1089`).  `removeOk` is the oracle for
`os.remove`: when the file exists and the call raises, the route's handler
returns a 500 before the catalog is touched. -/
def delete_version (st : ServerState) (version : String) (removeOk : Bool) :
    Resp × ServerState :=
  let versions := load_versions st
  match versions.find? (fun v => v.version == version) with
  | none => (Resp.notFound ("Version " ++ version ++ " not found"), st)
  | some target =>
    if target.is_active then
      (Resp.badRequest "Cannot delete active version. Activate another version first.", st)
    else
      let filename := target.download_url
      if fileExists st.uploads filename && !removeOk then
        (Resp.serverError "Error deleting version", st)
      else
        let st1 := { st with uploads := removeFile st.uploads filename }
        (Resp.ok, save_versions st1 (versions.filter (fun v => v.version ≠ version)))

/-- `delete_launcher_version` (`server.py:1091-1124`). -/
def delete_launcher_version (st : ServerState) (version : String) (removeOk : Bool) :
    Resp × ServerState :=
  let versions := load_launcher_versions st
  match versions.find? (fun v => v.version == version) with
  | none => (Resp.notFound ("Launcher version " ++ version ++ " not found"), st)
  | some target =>
    if target.is_active then
      (Resp.badRequest "Cannot delete active launcher version. Activate another version first.", st)
    else
      let filename := target.download_url
      if fileExists st.uploads filename && !removeOk then
        (Resp.serverError "Error deleting launcher version", st)
      else
        let st1 := { st with uploads := removeFile st.uploads filename }
        (Resp.ok, save_launcher_versions st1 (versions.filter (fun v => v.version ≠ version)))

/-- Python's `<=` on strings: lexicographic comparison of the character
sequences (by code point). -/
def charsLe : List Char → List Char → Bool
  | [], _ => true
  | _ :: _, [] => false
  | a :: as, b :: bs => if a < b then true else if b < a then false else charsLe as bs

/-- The comparison Python's stable `versions.sort(key=..., reverse=True)`
uses at `server.py:884`: descending by `release_date`, string comparison
(`x.get('release_date', '')` as the key). -/
def dateDesc (a b : Release) : Bool :=
  charsLe b.release_date.data a.release_date.data

/-- `get_version_history` (`server.py:878-887`): the catalog stably sorted
by `release_date`, newest first. -/
def get_version_history (st : ServerState) : List Release :=
  (load_versions st).mergeSort dateDesc

/-- `get_launcher_history` (`server.py:889-898`). -/
def get_launcher_history (st : ServerState) : List Release :=
  (load_launcher_versions st).mergeSort dateDesc

/-- The `login_required` decorator (`server.py:60-67`): redirects to the
login page when the session has no `user_id`, else runs the handler. -/
def login_required (session_user : Option Nat)
    (handler : ServerState → Resp × ServerState) (st : ServerState) :
    Resp × ServerState :=
  match session_user with
  | none => (Resp.redirectLogin, st)
  | some _ => handler st

/-- The `/api/upload` route as registered (`server.py:900-901`): it carries
no `login_required` decorator, so the session is never consulted. -/
def upload_route (_session_user : Option Nat) (st : ServerState) (hasFile : Bool)
    (fname : String) (content : List Nat) (version_form release_notes upload_type now : String)
    (fileSaveOk : Bool) : Resp × ServerState :=
  upload_game_version st hasFile fname content version_form release_notes upload_type now fileSaveOk

/-- The `/api/version/<version>/activate` route as registered
(`server.py:996-997`): no `login_required` decorator. -/
def activate_route (_session_user : Option Nat) (st : ServerState)
    (version : String) : Resp × ServerState :=
  activate_version st version

/-- The `/api/version/<version>` DELETE route as registered
(`server.py:1056-1057`): no `login_required` decorator. -/
def delete_route (_session_user : Option Nat) (st : ServerState)
    (version : String) (removeOk : Bool) : Resp × ServerState :=
  delete_version st version removeOk

/-- `os.path.join` for the shapes occurring here (the second argument is
always a relative name). -/
def os_path_join (a b : String) : String := a ++ "/" ++ b

/-- Splitting a character list at a separator, Python `str.split(sep)`
style (adjacent separators yield empty components). -/
def splitOnChar (sep : Char) : List Char → List (List Char)
  | [] => [[]]
  | c :: cs =>
    let r := splitOnChar sep cs
    if c = sep then [] :: r
    else
      match r with
      | [] => [[c]]
      | h :: t => (c :: h) :: t

/-- The `/`-separated components of a path. -/
def pathComponents (path : String) : List String :=
  (splitOnChar '/' path.data).map String.mk

/-- POSIX resolution of a relative path: `.` and empty components are
skipped, `..` pops the previous component. -/
def resolveComponents (comps : List String) : List String :=
  comps.foldl
    (fun stack c =>
      if c = "" ∨ c = "." then stack
      else if c = ".." then stack.dropLast
      else stack ++ [c])
    []

/-- Whether a relative path resolves to a location strictly inside
directory `dir`. -/
def resolvesInside (dir : String) (path : String) : Bool :=
  match resolveComponents (pathComponents path) with
  | d :: _ :: _ => d == dir
  | _ => false

/-- The server's initial on-disk state: no catalog documents, no uploads. -/
def initState : ServerState :=
  { versionsFile := none, launcherFile := none, uploads := [] }

/-- Number of active entries in a catalog. -/
def activeCount (l : List Release) : Nat :=
  l.countP (fun v => v.is_active)

/-- The activation invariant of §3 of the spec: at most one active release,
and exactly one iff the catalog is non-empty. -/
def catalogInvariant (l : List Release) : Prop :=
  activeCount l = (if l.isEmpty then 0 else 1)

/-- Uniqueness of version keys within a catalog. -/
def versionsNodup (l : List Release) : Prop :=
  (l.map (fun v => v.version)).Nodup

/-- One externally triggered mutation, with its request data and IO oracles. -/
inductive Op where
  | upload (hasFile : Bool) (fname : String) (content : List Nat)
      (version_form release_notes upload_type now : String) (fileSaveOk : Bool)
  | activateGame (version : String)
  | activateLauncher (version : String)
  | deleteGame (version : String) (removeOk : Bool)
  | deleteLauncher (version : String) (removeOk : Bool)

/-- The state transition of one mutation request. -/
def applyOp (st : ServerState) : Op → ServerState
  | Op.upload h f c vf n ut now ok =>
      (upload_game_version st h f c vf n ut now ok).2
  | Op.activateGame v => (activate_version st v).2
  | Op.activateLauncher v => (activate_launcher_version st v).2
  | Op.deleteGame v ok => (delete_version st v ok).2
  | Op.deleteLauncher v ok => (delete_launcher_version st v ok).2

/-- A sequence of mutation requests, applied in order. -/
def applyOps (st : ServerState) (ops : List Op) : ServerState :=
  ops.foldl applyOp st

/-! ### Round-trip of the JSON encoding -/

theorem decodeRelease_releaseToJson (r : Release) :
    decodeRelease (releaseToJson r) = some r := rfl

theorem decodeCatalog_encode (X : List Release) :
    decodeCatalog (Json.arr (X.map releaseToJson)) = X := by
  induction X with
  | nil => rfl
  | cons r rest ih =>
    simp only [decodeCatalog, List.map_cons, List.filterMap_cons,
      decodeRelease_releaseToJson] at ih ⊢
    simp [ih]

theorem load_versions_save_versions (st : ServerState) (X : List Release) :
    load_versions (save_versions st X) = X := by
  simp [load_versions, save_versions, decodeCatalog_encode]

theorem load_launcher_save_launcher (st : ServerState) (X : List Release) :
    load_launcher_versions (save_launcher_versions st X) = X := by
  simp [load_launcher_versions, save_launcher_versions, decodeCatalog_encode]

theorem load_launcher_save_versions (st : ServerState) (X : List Release) :
    load_launcher_versions (save_versions st X) = load_launcher_versions st := rfl

theorem load_versions_save_launcher (st : ServerState) (X : List Release) :
    load_versions (save_launcher_versions st X) = load_versions st := rfl

theorem load_versions_set_uploads (st : ServerState) (u : List (String × List Nat)) :
    load_versions { st with uploads := u } = load_versions st := rfl

theorem load_launcher_set_uploads (st : ServerState) (u : List (String × List Nat)) :
    load_launcher_versions { st with uploads := u } = load_launcher_versions st := rfl

/-! ### Catalog-transform lemmas -/

theorem activeCount_deactivateAll (l : List Release) :
    activeCount (deactivateAll l) = 0 := by
  simp [activeCount, deactivateAll, List.countP_map, Function.comp_def, List.countP_eq_zero]

theorem map_version_deactivateAll (l : List Release) :
    (deactivateAll l).map (fun v => v.version) = l.map (fun v => v.version) := by
  simp [deactivateAll, List.map_map, Function.comp_def]

theorem map_version_activateFirst (l : List Release) (v : String) :
    (activateFirst l v).map (fun r => r.version) = l.map (fun r => r.version) := by
  induction l with
  | nil => rfl
  | cons a rest ih =>
    by_cases h : a.version == v <;> simp [activateFirst, h, ih]

theorem activeCount_activateFirst_of_all_inactive :
    ∀ (l : List Release) (v : String), (∀ r ∈ l, r.is_active = false) →
      l.any (fun r => r.version == v) = true →
      activeCount (activateFirst l v) = 1
  | [], _, _, hmem => by simp at hmem
  | a :: rest, v, hin, hmem => by
    by_cases h : a.version == v
    · have hrest : ∀ r ∈ rest, r.is_active = false := fun r hr => hin r (List.mem_cons_of_mem _ hr)
      have : activeCount rest = 0 := by
        simp only [activeCount, List.countP_eq_zero]
        intro r hr; simp [hrest r hr]
      simp [activateFirst, h, activeCount, List.countP_cons] at this ⊢
      simpa [activeCount] using this
    · have ha : a.is_active = false := hin a (List.mem_cons_self a rest)
      have hmem' : rest.any (fun r => r.version == v) = true := by
        simp only [List.any_cons, h, Bool.false_or] at hmem
        exact hmem
      have hrest : ∀ r ∈ rest, r.is_active = false := fun r hr => hin r (List.mem_cons_of_mem _ hr)
      have ih := activeCount_activateFirst_of_all_inactive rest v hrest hmem'
      simp [activateFirst, h, activeCount, List.countP_cons, ha] at ih ⊢
      simpa [activeCount] using ih

theorem deactivateAll_all_inactive (l : List Release) :
    ∀ r ∈ deactivateAll l, r.is_active = false := by
  intro r hr
  simp only [deactivateAll, List.mem_map] at hr
  obtain ⟨s, _, rfl⟩ := hr
  rfl

theorem deactivateAll_deactivateAll (l : List Release) :
    deactivateAll (deactivateAll l) = deactivateAll l := by
  simp [deactivateAll, List.map_map, Function.comp_def]

theorem deactivateAll_activateFirst (l : List Release) (v : String) :
    deactivateAll (activateFirst l v) = deactivateAll l := by
  induction l with
  | nil => rfl
  | cons a rest ih =>
    by_cases h : a.version == v <;> simp [activateFirst, h, deactivateAll] at ih ⊢
    exact ih

theorem any_version_deactivateAll (l : List Release) (v : String) :
    (deactivateAll l).any (fun r => r.version == v) = l.any (fun r => r.version == v) := by
  simp [deactivateAll, List.any_map, Function.comp_def]

theorem length_deactivateAll (l : List Release) :
    (deactivateAll l).length = l.length := by
  simp [deactivateAll]

theorem length_activateFirst (l : List Release) (v : String) :
    (activateFirst l v).length = l.length := by
  induction l with
  | nil => rfl
  | cons a rest ih =>
    by_cases h : a.version == v <;> simp [activateFirst, h, ih]

/-! ### The activation invariant and its preservation -/

/-- Well-formedness of one channel's catalog: the activation invariant
together with uniqueness of version keys. -/
def CatalogOk (l : List Release) : Prop :=
  catalogInvariant l ∧ versionsNodup l

theorem catalogOk_nil : CatalogOk [] := by
  constructor
  · simp [catalogInvariant, activeCount]
  · simp [versionsNodup]

theorem catalogOk_uploadCompute (l : List Release) (vinfo : Release)
    (hno : versionsNodup l) (hact : vinfo.is_active = true) :
    CatalogOk (uploadCompute l vinfo) := by
  constructor
  · have h0 : activeCount (deactivateAll (l.filter (fun v => v.version ≠ vinfo.version))) = 0 :=
      activeCount_deactivateAll _
    simp only [catalogInvariant, uploadCompute, activeCount, List.countP_append] at h0 ⊢
    simp [h0, hact, List.countP_cons]
    exact fun a ha => deactivateAll_all_inactive _ a ha
  · simp only [versionsNodup, uploadCompute, List.map_append]
    rw [List.nodup_append]
    refine ⟨?_, by simp, ?_⟩
    · rw [map_version_deactivateAll]
      exact hno.sublist ((List.filter_sublist l).map _)
    · intro x hx
      rw [map_version_deactivateAll] at hx
      simp only [List.mem_map, List.mem_filter] at hx
      obtain ⟨r, ⟨_, hr⟩, rfl⟩ := hx
      simp only [List.map_cons, List.map_nil, List.mem_singleton]
      intro hEq
      rw [hEq] at hr
      simp at hr

theorem catalogOk_activateFirst (l : List Release) (v : String)
    (hno : versionsNodup l)
    (hmem : l.any (fun r => r.version == v) = true) :
    CatalogOk (activateFirst (deactivateAll l) v) := by
  constructor
  · have hcount : activeCount (activateFirst (deactivateAll l) v) = 1 :=
      activeCount_activateFirst_of_all_inactive (deactivateAll l) v
        (deactivateAll_all_inactive l)
        (by rw [any_version_deactivateAll]; exact hmem)
    have hne : l ≠ [] := by
      intro hnil; rw [hnil] at hmem; simp at hmem
    have hlen : (activateFirst (deactivateAll l) v).length = l.length := by
      rw [length_activateFirst, length_deactivateAll]
    simp only [catalogInvariant, hcount]
    have : (activateFirst (deactivateAll l) v).isEmpty = false := by
      rw [List.isEmpty_eq_false]
      intro hx
      rw [hx] at hlen
      exact hne (List.length_eq_zero.mp hlen.symm)
    simp [this]
  · simp only [versionsNodup, map_version_activateFirst, map_version_deactivateAll]
    exact hno

theorem catalogOk_delete (l : List Release) (v : String) (t : Release)
    (h : CatalogOk l)
    (hfind : l.find? (fun r => r.version == v) = some t)
    (hact : t.is_active = false) :
    CatalogOk (l.filter (fun r => r.version ≠ v)) := by
  have htl : t ∈ l := List.mem_of_find?_eq_some hfind
  have htv : t.version = v := by
    have := List.find?_some hfind
    simpa using this
  have hne : l.isEmpty = false := by
    cases l with
    | nil => cases htl
    | cons a rest => rfl
  have hcount : activeCount l = 1 := by
    have := h.1
    rw [catalogInvariant, hne] at this
    simpa using this
  -- the unique active entry
  have hpos : 0 < l.countP (fun r => r.is_active) := by
    rw [show l.countP (fun r => r.is_active) = activeCount l from rfl, hcount]
    exact Nat.one_pos
  obtain ⟨a, hal, haact⟩ := List.countP_pos_iff.mp hpos
  have haact : a.is_active = true := by simpa using haact
  -- the active entry has a different version key
  have hav : a.version ≠ v := by
    intro hEq
    have : a = t := List.inj_on_of_nodup_map h.2 hal htl (by rw [hEq, htv])
    rw [this] at haact
    rw [haact] at hact
    cases hact
  have hafl : a ∈ l.filter (fun r => r.version ≠ v) := by
    rw [List.mem_filter]
    exact ⟨hal, by simpa using hav⟩
  constructor
  · have hle : activeCount (l.filter (fun r => r.version ≠ v)) ≤ activeCount l :=
      (List.filter_sublist l).countP_le _
    have hge : 0 < activeCount (l.filter (fun r => r.version ≠ v)) :=
      List.countP_pos_iff.mpr ⟨a, hafl, by simpa using haact⟩
    have hone : activeCount (l.filter (fun r => r.version ≠ v)) = 1 := by
      rw [hcount] at hle
      omega
    have hfe : (l.filter (fun r => r.version ≠ v)).isEmpty = false := by
      cases hfl : l.filter (fun r => r.version ≠ v) with
      | nil => rw [hfl] at hafl; cases hafl
      | cons b rest => rfl
    rw [catalogInvariant, hfe, hone]
    simp
  · exact List.Nodup.sublist ((List.filter_sublist l).map _) h.2

/-- Well-formedness of the whole server state: both channels' catalogs. -/
def StateOk (st : ServerState) : Prop :=
  CatalogOk (load_versions st) ∧ CatalogOk (load_launcher_versions st)

theorem stateOk_init : StateOk initState :=
  ⟨catalogOk_nil, catalogOk_nil⟩

theorem stateOk_upload (st : ServerState) (hasFile : Bool) (fname : String)
    (content : List Nat) (vf notes ut now : String) (ok : Bool) (h : StateOk st) :
    StateOk (upload_game_version st hasFile fname content vf notes ut now ok).2 := by
  simp only [upload_game_version]
  split
  · exact h
  · split
    · exact h
    · split
      · exact h
      · split
        · exact h
        · split
          · exact h
          · split
            · -- launcher upload
              refine ⟨?_, ?_⟩
              · exact h.1
              · rw [load_launcher_save_launcher]
                exact catalogOk_uploadCompute _ _ h.2.2 rfl
            · -- game upload
              refine ⟨?_, ?_⟩
              · rw [load_versions_save_versions]
                exact catalogOk_uploadCompute _ _ h.1.2 rfl
              · exact h.2

theorem stateOk_activate (st : ServerState) (v : String) (h : StateOk st) :
    StateOk (activate_version st v).2 := by
  simp only [activate_version]
  split
  · next hmem =>
    refine ⟨?_, ?_⟩
    · rw [load_versions_save_versions]
      exact catalogOk_activateFirst _ _ h.1.2 hmem
    · exact h.2
  · exact h

theorem stateOk_activate_launcher (st : ServerState) (v : String) (h : StateOk st) :
    StateOk (activate_launcher_version st v).2 := by
  simp only [activate_launcher_version]
  split
  · next hmem =>
    refine ⟨?_, ?_⟩
    · exact h.1
    · rw [load_launcher_save_launcher]
      exact catalogOk_activateFirst _ _ h.2.2 hmem
  · exact h

theorem stateOk_delete (st : ServerState) (v : String) (ok : Bool) (h : StateOk st) :
    StateOk (delete_version st v ok).2 := by
  simp only [delete_version]
  split
  · exact h
  · next t hfind =>
    split
    · exact h
    · next hact =>
      split
      · exact h
      · refine ⟨?_, ?_⟩
        · rw [load_versions_save_versions]
          exact catalogOk_delete _ _ _ h.1 hfind (by simpa using hact)
        · exact h.2

theorem stateOk_delete_launcher (st : ServerState) (v : String) (ok : Bool) (h : StateOk st) :
    StateOk (delete_launcher_version st v ok).2 := by
  simp only [delete_launcher_version]
  split
  · exact h
  · next t hfind =>
    split
    · exact h
    · next hact =>
      split
      · exact h
      · refine ⟨?_, ?_⟩
        · exact h.1
        · rw [load_launcher_save_launcher]
          exact catalogOk_delete _ _ _ h.2 hfind (by simpa using hact)

theorem stateOk_applyOp (st : ServerState) (op : Op) (h : StateOk st) :
    StateOk (applyOp st op) := by
  cases op with
  | upload hf f c vf n ut now ok => exact stateOk_upload st hf f c vf n ut now ok h
  | activateGame v => exact stateOk_activate st v h
  | activateLauncher v => exact stateOk_activate_launcher st v h
  | deleteGame v ok => exact stateOk_delete st v ok h
  | deleteLauncher v ok => exact stateOk_delete_launcher st v ok h

theorem stateOk_applyOps (ops : List Op) :
    ∀ st : ServerState, StateOk st → StateOk (applyOps st ops) := by
  induction ops with
  | nil => intro st h; exact h
  | cons op rest ih =>
    intro st h
    exact ih (applyOp st op) (stateOk_applyOp st op h)

theorem catalogInvariant_spelled (l : List Release) (h : catalogInvariant l) :
    activeCount l ≤ 1 ∧ (activeCount l = 1 ↔ l ≠ []) := by
  rw [catalogInvariant] at h
  cases l with
  | nil => simp only [List.isEmpty_nil, if_true] at h; simp [h]
  | cons a rest =>
    simp only [List.isEmpty_cons, Bool.false_eq_true, if_false] at h
    simp [h]

theorem any_version_activateFirst (l : List Release) (v w : String) :
    (activateFirst l w).any (fun r => r.version == v) =
      l.any (fun r => r.version == v) := by
  induction l with
  | nil => rfl
  | cons a rest ih =>
    by_cases h : a.version == w <;> simp [activateFirst, h, ih]

theorem save_versions_save_versions (st : ServerState) (X Y : List Release) :
    save_versions (save_versions st X) Y = save_versions st Y := rfl

theorem save_launcher_save_launcher (st : ServerState) (X Y : List Release) :
    save_launcher_versions (save_launcher_versions st X) Y = save_launcher_versions st Y := rfl

/-! ### Lexicographic string comparison: reflexivity, transitivity, totality -/

theorem charsLe_refl : ∀ l : List Char, charsLe l l = true
  | [] => rfl
  | a :: as => by simp [charsLe, charsLe_refl as]

theorem charsLe_total : ∀ l₁ l₂ : List Char, charsLe l₁ l₂ || charsLe l₂ l₁
  | [], _ => by simp [charsLe]
  | _ :: _, [] => by simp [charsLe]
  | a :: as, b :: bs => by
    rcases lt_trichotomy a b with h | h | h
    · simp [charsLe, h]
    · subst h
      simp only [charsLe, lt_irrefl, if_false]
      exact charsLe_total as bs
    · simp [charsLe, h, lt_asymm h]

theorem charsLe_trans : ∀ l₁ l₂ l₃ : List Char,
    charsLe l₁ l₂ = true → charsLe l₂ l₃ = true → charsLe l₁ l₃ = true
  | [], _, _, _, _ => rfl
  | _ :: _, [], _, h₁, _ => by simp [charsLe] at h₁
  | _ :: _, _ :: _, [], _, h₂ => by simp [charsLe] at h₂
  | a :: as, b :: bs, c :: cs, h₁, h₂ => by
    rcases lt_trichotomy a b with hab | hab | hab
    · rcases lt_trichotomy b c with hbc | hbc | hbc
      · simp [charsLe, lt_trans hab hbc]
      · subst hbc; simp [charsLe, hab]
      · simp only [charsLe, if_neg (lt_asymm hbc), if_pos hbc] at h₂
        cases h₂
    · subst hab
      simp only [charsLe, lt_irrefl, if_false] at h₁
      rcases lt_trichotomy a c with hac | hac | hac
      · simp [charsLe, hac]
      · subst hac
        simp only [charsLe, lt_irrefl, if_false] at h₂ ⊢
        exact charsLe_trans as bs cs h₁ h₂
      · simp only [charsLe, if_neg (lt_asymm hac), if_pos hac] at h₂
        cases h₂
    · simp only [charsLe, if_neg (lt_asymm hab), if_pos hab] at h₁
      cases h₁

theorem dateDesc_trans (a b c : Release) :
    dateDesc a b = true → dateDesc b c = true → dateDesc a c = true :=
  fun h₁ h₂ => charsLe_trans _ _ _ h₂ h₁

theorem dateDesc_total (a b : Release) : dateDesc a b || dateDesc b a :=
  charsLe_total _ _

/-- Stability of the history sort: for each fixed timestamp, the entries
bearing it appear in the sorted output exactly in catalog order. -/
theorem mergeSort_dateDesc_filter_date (l : List Release) (d : String) :
    (l.mergeSort dateDesc).filter (fun r => r.release_date == d) =
      l.filter (fun r => r.release_date == d) := by
  have hmemdate : ∀ r ∈ l.filter (fun r => r.release_date == d), r.release_date = d := by
    intro r hr
    have := (List.mem_filter.mp hr).2
    exact eq_of_beq this
  have hA : (l.filter (fun r => r.release_date == d)).Pairwise (fun a b => dateDesc a b = true) := by
    apply List.pairwise_of_forall_mem_list
    intro a ha b hb
    rw [dateDesc, hmemdate a ha, hmemdate b hb]
    exact charsLe_refl _
  have h1 : List.Sublist (l.filter (fun r => r.release_date == d)) (l.mergeSort dateDesc) :=
    List.sublist_mergeSort dateDesc_trans dateDesc_total hA (List.filter_sublist l)
  have h2 : List.Sublist (l.filter (fun r => r.release_date == d))
      ((l.mergeSort dateDesc).filter (fun r => r.release_date == d)) := by
    have h' := h1.filter (fun r => r.release_date == d)
    rwa [List.filter_eq_self.mpr (fun a ha => (List.mem_filter.mp ha).2)] at h'
  have h3 : (l.filter (fun r => r.release_date == d)).length =
      ((l.mergeSort dateDesc).filter (fun r => r.release_date == d)).length :=
    (((List.mergeSort_perm l dateDesc).filter _).length_eq).symm
  exact (h2.eq_of_length h3).symm

/-! ### Example data used by witnesses -/

/-- A sample release, active. -/
def rel10 : Release :=
  { version := "1.0", download_url := "game-v1.0.zip", release_notes := ""
    file_size := 2, release_date := "2024-01-01T00:00:00", is_active := true }

/-- A sample release, inactive. -/
def rel11 : Release :=
  { version := "1.1", download_url := "game-v1.1.zip", release_notes := ""
    file_size := 3, release_date := "2024-01-02T00:00:00", is_active := false }

/-- A sample launcher release, active. -/
def lrel10 : Release :=
  { version := "1.0", download_url := "launcher-v1.0.zip", release_notes := ""
    file_size := 2, release_date := "2024-01-01T00:00:00", is_active := true }

/-- A sample launcher release, inactive. -/
def lrel11 : Release :=
  { version := "1.1", download_url := "launcher-v1.1.zip", release_notes := ""
    file_size := 3, release_date := "2024-01-02T00:00:00", is_active := false }

/-- A sample server state with two releases on each channel and their
artifacts present. -/
def exState : ServerState :=
  { versionsFile := some (Json.arr ([rel10, rel11].map releaseToJson))
    launcherFile := some (Json.arr ([lrel10, lrel11].map releaseToJson))
    uploads := [("game-v1.0.zip", [1, 2]), ("game-v1.1.zip", [1, 2, 3]),
                ("launcher-v1.0.zip", [4, 5]), ("launcher-v1.1.zip", [6, 7, 8])] }

/-! ### Claims -/

/-- C1: for every channel and every sequence of Upload/Activate/Delete
operations starting from an empty catalog, after each operation the
channel's catalog contains at most one release with `is_active = true`, and
exactly one release with `is_active = true` if and only if the catalog is
non-empty. -/
theorem C1_activation_invariant (ops : List Op) :
    (activeCount (load_versions (applyOps initState ops)) ≤ 1 ∧
      (activeCount (load_versions (applyOps initState ops)) = 1 ↔
        load_versions (applyOps initState ops) ≠ [])) ∧
    (activeCount (load_launcher_versions (applyOps initState ops)) ≤ 1 ∧
      (activeCount (load_launcher_versions (applyOps initState ops)) = 1 ↔
        load_launcher_versions (applyOps initState ops) ≠ [])) := by
  have h := stateOk_applyOps ops initState stateOk_init
  exact ⟨catalogInvariant_spelled _ h.1.1, catalogInvariant_spelled _ h.2.1⟩

/-- C5: for every channel and sequence of releases `X`, `replace(channel, X)`
followed by `load(channel)` returns a collection equal to `X`: the same
entries with the same field values, in the same order. -/
theorem C5_replace_load_roundtrip (st : ServerState) (X : List Release) :
    load_versions (save_versions st X) = X ∧
    load_launcher_versions (save_launcher_versions st X) = X :=
  ⟨load_versions_save_versions st X, load_launcher_save_launcher st X⟩

/-- C4: for either channel, activating a version present in the catalog
succeeds, and activating it twice in a row leaves the state after the
second call identical to the state after the first (a successful no-op);
activating an absent version fails with NotFound and leaves the state
unchanged. -/
theorem C4_activate_idempotent (st : ServerState) (v : String) :
    ((load_versions st).any (fun r => r.version == v) = true →
      (activate_version st v).1 = Resp.ok ∧
      activate_version (activate_version st v).2 v = (Resp.ok, (activate_version st v).2)) ∧
    ((load_versions st).any (fun r => r.version == v) = false →
      activate_version st v = (Resp.notFound ("Version " ++ v ++ " not found"), st)) ∧
    ((load_launcher_versions st).any (fun r => r.version == v) = true →
      (activate_launcher_version st v).1 = Resp.ok ∧
      activate_launcher_version (activate_launcher_version st v).2 v =
        (Resp.ok, (activate_launcher_version st v).2)) ∧
    ((load_launcher_versions st).any (fun r => r.version == v) = false →
      activate_launcher_version st v = (Resp.notFound ("Launcher version " ++ v ++ " not found"), st)) := by
  refine ⟨?_, ?_, ?_, ?_⟩
  · intro h
    constructor
    · simp [activate_version, h]
    · have hst : (activate_version st v).2 =
          save_versions st (activateFirst (deactivateAll (load_versions st)) v) := by
        simp [activate_version, h]
      rw [hst]
      have hload : load_versions (save_versions st
          (activateFirst (deactivateAll (load_versions st)) v)) =
          activateFirst (deactivateAll (load_versions st)) v :=
        load_versions_save_versions _ _
      have hany : (activateFirst (deactivateAll (load_versions st)) v).any
          (fun r => r.version == v) = true := by
        rw [any_version_activateFirst, any_version_deactivateAll]
        exact h
      simp only [activate_version, hload, hany, if_true]
      rw [deactivateAll_activateFirst, deactivateAll_deactivateAll,
        save_versions_save_versions]
  · intro h
    simp [activate_version, h]
  · intro h
    constructor
    · simp [activate_launcher_version, h]
    · have hst : (activate_launcher_version st v).2 =
          save_launcher_versions st (activateFirst (deactivateAll (load_launcher_versions st)) v) := by
        simp [activate_launcher_version, h]
      rw [hst]
      have hload : load_launcher_versions (save_launcher_versions st
          (activateFirst (deactivateAll (load_launcher_versions st)) v)) =
          activateFirst (deactivateAll (load_launcher_versions st)) v :=
        load_launcher_save_launcher _ _
      have hany : (activateFirst (deactivateAll (load_launcher_versions st)) v).any
          (fun r => r.version == v) = true := by
        rw [any_version_activateFirst, any_version_deactivateAll]
        exact h
      simp only [activate_launcher_version, hload, hany, if_true]
      rw [deactivateAll_activateFirst, deactivateAll_deactivateAll,
        save_launcher_save_launcher]
  · intro h
    simp [activate_launcher_version, h]

theorem filter_version_eq_deactivateAll_filter_ne (l : List Release) (v : String) :
    (deactivateAll (l.filter (fun r => r.version ≠ v))).filter (fun r => r.version == v) = [] := by
  rw [List.filter_eq_nil_iff]
  intro a ha
  simp only [deactivateAll, List.mem_map, List.mem_filter] at ha
  obtain ⟨b, ⟨_, hb⟩, rfl⟩ := ha
  simpa using hb

/-- C2: a successful upload stores the artifact and replaces the catalog:
any pre-existing entry with the same version is removed wholesale, every
other entry is deactivated, and a single new active entry with the measured
file size and the current timestamp is appended; if the artifact write
fails, nothing at all changes (the artifact is stored before the catalog is
replaced); uploading the same version twice leaves exactly one entry for
that version, bearing the second upload's size and date.  Both channels
behave alike (`upload_type` selects the catalog). -/
theorem C2_upload_replaces (st : ServerState) (fname : String) (content : List Nat)
    (version notes now : String)
    (hv : pyStrip version = version) (hne : version ≠ "")
    (hf : fname ≠ "") (ha : allowed_file fname = true) :
    (upload_game_version st true fname content version notes "game" now true).1 = Resp.ok ∧
    load_versions (upload_game_version st true fname content version notes "game" now true).2 =
      deactivateAll ((load_versions st).filter (fun r => r.version ≠ version)) ++
        [{ version := version, download_url := uploadFilename "game" version,
           release_notes := notes, file_size := content.length,
           release_date := now, is_active := true }] ∧
    load_launcher_versions (upload_game_version st true fname content version notes "game" now true).2 =
      load_launcher_versions st ∧
    (upload_game_version st true fname content version notes "game" now true).2.uploads =
      putFile st.uploads (uploadFilename "game" version) content ∧
    upload_game_version st true fname content version notes "game" now false =
      (Resp.serverError "Error uploading version", st) ∧
    (∀ (content2 : List Nat) (notes2 now2 : String),
      (load_versions (upload_game_version
          (upload_game_version st true fname content version notes "game" now true).2
          true fname content2 version notes2 "game" now2 true).2).filter
        (fun r => r.version == version) =
      [{ version := version, download_url := uploadFilename "game" version,
         release_notes := notes2, file_size := content2.length,
         release_date := now2, is_active := true }]) ∧
    (upload_game_version st true fname content version notes "launcher" now true).1 = Resp.ok ∧
    load_launcher_versions (upload_game_version st true fname content version notes "launcher" now true).2 =
      deactivateAll ((load_launcher_versions st).filter (fun r => r.version ≠ version)) ++
        [{ version := version, download_url := uploadFilename "launcher" version,
           release_notes := notes, file_size := content.length,
           release_date := now, is_active := true }] ∧
    load_versions (upload_game_version st true fname content version notes "launcher" now true).2 =
      load_versions st := by
  have hmemver : ∀ (X : List Release) (a : Release),
      a ∈ deactivateAll (X.filter (fun r => !decide (r.version = version))) → ¬a.version = version := by
    intro X a ha
    simp only [deactivateAll, List.mem_map, List.mem_filter] at ha
    obtain ⟨b, ⟨_, hb⟩, rfl⟩ := ha
    simpa using hb
  refine ⟨?_, ?_, ?_, ?_, ?_, ?_, ?_, ?_, ?_⟩
  · simp [upload_game_version, hv, hne, hf, ha]
  · simp [upload_game_version, uploadCompute, hv, hne, hf, ha,
      load_versions_save_versions, load_versions_set_uploads, uploadFilename]
  · simp [upload_game_version, hv, hne, hf, ha, load_launcher_save_versions,
      load_launcher_set_uploads]
  · simp [upload_game_version, hv, hne, hf, ha, save_versions, uploadFilename]
  · simp [upload_game_version, hv, hne, hf, ha]
  · intro content2 notes2 now2
    simp [upload_game_version, uploadCompute, hv, hne, hf, ha,
      load_versions_save_versions, load_versions_set_uploads, List.filter_append,
      uploadFilename]
    intro a ha'
    exact hmemver _ a ha'
  · simp [upload_game_version, hv, hne, hf, ha]
  · simp [upload_game_version, uploadCompute, hv, hne, hf, ha,
      load_launcher_save_launcher, load_launcher_set_uploads, uploadFilename]
  · simp [upload_game_version, hv, hne, hf, ha, load_versions_save_launcher,
      load_versions_set_uploads]

/-- Witness for C2 at concrete inputs. -/
theorem C2_upload_replaces_witness :
    (upload_game_version initState true "build.zip" [9, 9] "2.0" "" "game"
      "2024-03-01T00:00:00" true).1 = Resp.ok :=
  (C2_upload_replaces initState "build.zip" [9, 9] "2.0" "" "2024-03-01T00:00:00"
    (by decide) (by decide) (by decide) (by decide)).1

/-- C6: for every channel, GetHistory returns the catalog's releases sorted
by `release_date` in descending order (each entry's date is greater than or
equal to the next one's), and any two entries with equal `release_date`
timestamps appear in their catalog insertion order (the sort is stable): for
each timestamp, filtering the history to it yields exactly the catalog
filtered to it. -/
theorem C6_history_sorted_stable (st : ServerState) :
    List.Perm (get_version_history st) (load_versions st) ∧
    (get_version_history st).Pairwise (fun a b => dateDesc a b = true) ∧
    (∀ d : String, (get_version_history st).filter (fun r => r.release_date == d) =
      (load_versions st).filter (fun r => r.release_date == d)) ∧
    List.Perm (get_launcher_history st) (load_launcher_versions st) ∧
    (get_launcher_history st).Pairwise (fun a b => dateDesc a b = true) ∧
    (∀ d : String, (get_launcher_history st).filter (fun r => r.release_date == d) =
      (load_launcher_versions st).filter (fun r => r.release_date == d)) := by
  refine ⟨List.mergeSort_perm _ _,
    List.sorted_mergeSort dateDesc_trans dateDesc_total _,
    fun d => mergeSort_dateDesc_filter_date _ d,
    List.mergeSort_perm _ _,
    List.sorted_mergeSort dateDesc_trans dateDesc_total _,
    fun d => mergeSort_dateDesc_filter_date _ d⟩

/-- Counterexample to C3: at a state where version 1.1 is inactive and its
artifact file exists, a failing artifact deletion (`os.remove` raising)
makes the route answer 500 and leave the catalog entry in place — the
claim's "the catalog entry is still removed" does not hold. -/
theorem C3_counterexample :
    (delete_version exState "1.1" false).1 = Resp.serverError "Error deleting version" ∧
    (load_versions (delete_version exState "1.1" false).2).any
      (fun r => r.version == "1.1") = true ∧
    load_versions (delete_version exState "1.1" false).2 = [rel10, rel11] ∧
    (delete_version exState "1.1" false).2.uploads = exState.uploads := by decide

/-- C3 (amended): delete fails NotFound when the version is absent and
InvalidState (HTTP 400) when the target is active, leaving catalog and
artifact store unchanged in both cases; otherwise it deletes the artifact
(skipping a missing file) and removes the catalog entry — but when the
artifact deletion itself fails, the operation answers 500 and the catalog
entry is NOT removed (only a missing artifact file is tolerated).  Both
channels behave alike. -/
theorem C3_delete_behaviour (st : ServerState) (v : String) (removeOk : Bool) :
    ((load_versions st).find? (fun r => r.version == v) = none →
      delete_version st v removeOk = (Resp.notFound ("Version " ++ v ++ " not found"), st)) ∧
    (∀ t : Release, (load_versions st).find? (fun r => r.version == v) = some t →
      (t.is_active = true →
        delete_version st v removeOk =
          (Resp.badRequest "Cannot delete active version. Activate another version first.", st)) ∧
      (t.is_active = false → fileExists st.uploads t.download_url = true → removeOk = false →
        delete_version st v removeOk = (Resp.serverError "Error deleting version", st)) ∧
      (t.is_active = false →
        (fileExists st.uploads t.download_url = false ∨ removeOk = true) →
        (delete_version st v removeOk).1 = Resp.ok ∧
        load_versions (delete_version st v removeOk).2 =
          (load_versions st).filter (fun r => r.version ≠ v) ∧
        (delete_version st v removeOk).2.uploads = removeFile st.uploads t.download_url ∧
        load_launcher_versions (delete_version st v removeOk).2 = load_launcher_versions st)) ∧
    ((load_launcher_versions st).find? (fun r => r.version == v) = none →
      delete_launcher_version st v removeOk =
        (Resp.notFound ("Launcher version " ++ v ++ " not found"), st)) ∧
    (∀ t : Release, (load_launcher_versions st).find? (fun r => r.version == v) = some t →
      (t.is_active = true →
        delete_launcher_version st v removeOk =
          (Resp.badRequest "Cannot delete active launcher version. Activate another version first.", st)) ∧
      (t.is_active = false → fileExists st.uploads t.download_url = true → removeOk = false →
        delete_launcher_version st v removeOk =
          (Resp.serverError "Error deleting launcher version", st)) ∧
      (t.is_active = false →
        (fileExists st.uploads t.download_url = false ∨ removeOk = true) →
        (delete_launcher_version st v removeOk).1 = Resp.ok ∧
        load_launcher_versions (delete_launcher_version st v removeOk).2 =
          (load_launcher_versions st).filter (fun r => r.version ≠ v) ∧
        (delete_launcher_version st v removeOk).2.uploads = removeFile st.uploads t.download_url ∧
        load_versions (delete_launcher_version st v removeOk).2 = load_versions st)) := by
  refine ⟨?_, ?_, ?_, ?_⟩
  · intro h
    simp [delete_version, h]
  · intro t hfind
    refine ⟨?_, ?_, ?_⟩
    · intro hact
      simp [delete_version, hfind, hact]
    · intro hact hex hrm
      simp [delete_version, hfind, hact, hex, hrm]
    · intro hact hcond
      have hres : delete_version st v removeOk = (Resp.ok,
          save_versions { st with uploads := removeFile st.uploads t.download_url }
            ((load_versions st).filter (fun r => r.version ≠ v))) := by
        rcases hcond with hex | hrm
        · simp [delete_version, hfind, hact, hex, save_versions, removeFile]
        · simp [delete_version, hfind, hact, hrm, save_versions, removeFile]
      rw [hres]
      exact ⟨rfl, load_versions_save_versions _ _, rfl, rfl⟩
  · intro h
    simp [delete_launcher_version, h]
  · intro t hfind
    refine ⟨?_, ?_, ?_⟩
    · intro hact
      simp [delete_launcher_version, hfind, hact]
    · intro hact hex hrm
      simp [delete_launcher_version, hfind, hact, hex, hrm]
    · intro hact hcond
      have hres : delete_launcher_version st v removeOk = (Resp.ok,
          save_launcher_versions { st with uploads := removeFile st.uploads t.download_url }
            ((load_launcher_versions st).filter (fun r => r.version ≠ v))) := by
        rcases hcond with hex | hrm
        · simp [delete_launcher_version, hfind, hact, hex, save_launcher_versions, removeFile]
        · simp [delete_launcher_version, hfind, hact, hrm, save_launcher_versions, removeFile]
      rw [hres]
      exact ⟨rfl, load_launcher_save_launcher _ _, rfl, rfl⟩

/-- Witness for C3 at concrete states: absent version, active target, and a
successful delete of an inactive version. -/
theorem C3_delete_behaviour_witness :
    delete_version exState "9.9" true = (Resp.notFound ("Version " ++ "9.9" ++ " not found"), exState) ∧
    delete_version exState "1.0" true =
      (Resp.badRequest "Cannot delete active version. Activate another version first.", exState) ∧
    (delete_version exState "1.1" true).1 = Resp.ok ∧
    delete_launcher_version exState "9.9" true =
      (Resp.notFound ("Launcher version " ++ "9.9" ++ " not found"), exState) :=
  ⟨(C3_delete_behaviour exState "9.9" true).1 (by decide),
   ((C3_delete_behaviour exState "1.0" true).2.1 rel10 (by decide)).1 (by decide),
   (((C3_delete_behaviour exState "1.1" true).2.1 rel11 (by decide)).2.2 (by decide) (by decide)).1,
   (C3_delete_behaviour exState "9.9" true).2.2.1 (by decide)⟩

/-- Counterexample to C8: an upload whose payload is empty (zero bytes) but
whose client filename has an allowed extension is accepted — the route
checks only for a missing file part, an empty version, an empty filename
and the extension, never the payload size — and the catalog is modified,
recording `file_size = 0`. -/
theorem C8_counterexample :
    (upload_game_version initState true "a.zip" [] "1.0" "" "game" "t0" true).1 = Resp.ok ∧
    load_versions (upload_game_version initState true "a.zip" [] "1.0" "" "game" "t0" true).2 =
      [{ version := "1.0", download_url := "game-v1.0.zip", release_notes := "",
         file_size := 0, release_date := "t0", is_active := true }] := by decide

/-- C8 (amended): upload answers 400 and leaves the state unchanged when
the file part is missing, when the version token is empty after stripping,
when the client filename is empty, or when the filename's extension is not
on the allow-list; an empty payload with an allowed filename is accepted
and recorded with `file_size = 0`. -/
theorem C8_upload_validation (st : ServerState) (fname : String)
    (content : List Nat) (vform notes ut now : String) (ok : Bool) :
    upload_game_version st false fname content vform notes ut now ok =
      (Resp.badRequest "No file uploaded", st) ∧
    (pyStrip vform = "" →
      upload_game_version st true fname content vform notes ut now ok =
        (Resp.badRequest "Version is required", st)) ∧
    (pyStrip vform ≠ "" → fname = "" →
      upload_game_version st true fname content vform notes ut now ok =
        (Resp.badRequest "No file selected", st)) ∧
    (pyStrip vform ≠ "" → fname ≠ "" → allowed_file fname = false →
      upload_game_version st true fname content vform notes ut now ok =
        (Resp.badRequest "Only ZIP files are allowed", st)) ∧
    (pyStrip vform ≠ "" → fname ≠ "" → allowed_file fname = true →
      (upload_game_version st true fname [] vform notes "game" now true).1 = Resp.ok ∧
      (load_versions (upload_game_version st true fname [] vform notes "game" now true).2).getLast? =
        some { version := pyStrip vform, download_url := uploadFilename "game" (pyStrip vform),
               release_notes := notes, file_size := 0, release_date := now,
               is_active := true }) := by
  refine ⟨?_, ?_, ?_, ?_, ?_⟩
  · simp [upload_game_version]
  · intro hv
    simp [upload_game_version, hv]
  · intro hv hf
    simp [upload_game_version, hv, hf]
  · intro hv hf ha
    simp [upload_game_version, hv, hf, ha]
  · intro hv hf ha
    constructor
    · simp [upload_game_version, hv, hf, ha]
    · simp [upload_game_version, uploadCompute, hv, hf, ha,
        load_versions_save_versions, load_versions_set_uploads]

/-- Witness for C8 at concrete inputs: a whitespace version and a
disallowed extension are rejected, an empty payload is accepted. -/
theorem C8_upload_validation_witness :
    upload_game_version exState true "a.txt" [1] " " "" "game" "t" true =
      (Resp.badRequest "Version is required", exState) ∧
    upload_game_version exState true "a.txt" [1] "1.0" "" "game" "t" true =
      (Resp.badRequest "Only ZIP files are allowed", exState) ∧
    (upload_game_version exState true "ok.zip" [] "3.0" "" "game" "t" true).1 = Resp.ok :=
  ⟨(C8_upload_validation exState "a.txt" [1] " " "" "game" "t" true).2.1 (by decide),
   (C8_upload_validation exState "a.txt" [1] "1.0" "" "game" "t" true).2.2.2.1
     (by decide) (by decide) (by decide),
   ((C8_upload_validation exState "ok.zip" [1] "3.0" "" "game" "t" true).2.2.2.2
     (by decide) (by decide) (by decide)).1⟩

/-- C9 evaluated on the code: the mutation API routes are registered
without the `login_required` decorator, so a request with no authenticated
session (`session_user = none`) still executes the mutation and changes the
catalog, while a `login_required`-guarded handler would have redirected to
the login page without touching the state. -/
theorem C9_unauthenticated_mutation :
    (upload_route none initState true "g.zip" [1] "1.0" "" "game" "t0" true).1 = Resp.ok ∧
    load_versions (upload_route none initState true "g.zip" [1] "1.0" "" "game" "t0" true).2 ≠
      load_versions initState ∧
    (activate_route none exState "1.1").1 = Resp.ok ∧
    load_versions (activate_route none exState "1.1").2 ≠ load_versions exState ∧
    (delete_route none exState "1.1" true).1 = Resp.ok ∧
    load_versions (delete_route none exState "1.1" true).2 ≠ load_versions exState ∧
    (login_required none (fun s => (Resp.ok, s)) exState).1 = Resp.redirectLogin := by decide

/-- Counterexample to C10: the artifact path is built from the raw version
token, so a token containing `/..` components resolves outside the
`downloads` directory — the upload with version `a/../../x` is accepted and
its artifact path resolves to `x.zip` next to the working directory, not
inside the store. -/
theorem C10_counterexample :
    (upload_game_version initState true "c.zip" [1] "a/../../x" "" "game" "t0" true).1 = Resp.ok ∧
    (upload_game_version initState true "c.zip" [1] "a/../../x" "" "game" "t0" true).2.uploads =
      [(uploadFilename "game" "a/../../x", [1])] ∧
    resolveComponents (pathComponents
      (os_path_join UPLOAD_FOLDER (uploadFilename "game" "a/../../x"))) = ["x.zip"] ∧
    resolvesInside UPLOAD_FOLDER
      (os_path_join UPLOAD_FOLDER (uploadFilename "game" "a/../../x")) = false := by decide

/-- C10 (amended): the stored artifact's name is generated deterministically
from the channel (upload type) and the version token alone — the upload's
outcome is completely independent of the client-supplied filename, which is
used only for the extension check — but the resulting path is not
guaranteed to stay inside the store directory for every version token. -/
theorem C10_artifact_naming (st : ServerState) (fname1 fname2 : String)
    (content : List Nat) (vform notes ut now : String) (ok : Bool)
    (h1 : fname1 ≠ "") (h2 : allowed_file fname1 = true)
    (h3 : fname2 ≠ "") (h4 : allowed_file fname2 = true) :
    upload_game_version st true fname1 content vform notes ut now ok =
      upload_game_version st true fname2 content vform notes ut now ok ∧
    (pyStrip vform ≠ "" → ok = true →
      (upload_game_version st true fname1 content vform notes ut now ok).2.uploads =
        putFile st.uploads (uploadFilename ut (pyStrip vform)) content) := by
  constructor
  · by_cases hv : pyStrip vform = ""
    · simp [upload_game_version, hv]
    · simp [upload_game_version, hv, h1, h2, h3, h4]
  · intro hv hok
    subst hok
    by_cases hut : ut = "launcher"
    · simp [upload_game_version, hv, h1, h2, uploadFilename, hut, save_launcher_versions]
    · simp [upload_game_version, hv, h1, h2, uploadFilename, hut, save_versions]

/-- Witness for C10: two different accepted client filenames produce the
identical result, and the artifact lands under the generated name. -/
theorem C10_artifact_naming_witness :
    upload_game_version initState true "a.zip" [1] "1.0" "" "game" "t" true =
      upload_game_version initState true "b.zip" [1] "1.0" "" "game" "t" true ∧
    (upload_game_version initState true "a.zip" [1] "1.0" "" "game" "t" true).2.uploads =
      putFile initState.uploads (uploadFilename "game" (pyStrip "1.0")) [1] :=
  ⟨(C10_artifact_naming initState "a.zip" "b.zip" [1] "1.0" "" "game" "t" true
      (by decide) (by decide) (by decide) (by decide)).1,
   (C10_artifact_naming initState "a.zip" "b.zip" [1] "1.0" "" "game" "t" true
      (by decide) (by decide) (by decide) (by decide)).2 (by decide) rfl⟩

/-- Counterexample to C7: `save_versions` overwrites the catalog in place
with no lock, temporary file or rename, so two upload requests whose
load-compute-replace cycles interleave (both load the same initial catalog
before either saves) lose the first upload's effect: after the interleaved
schedule version 1.0 is gone from the catalog, while the serialized
schedule keeps it. -/
theorem C7_counterexample :
    (load_versions (save_versions (save_versions initState
        (uploadCompute (load_versions initState)
          { version := "1.0", download_url := "game-v1.0.zip", release_notes := "",
            file_size := 1, release_date := "t1", is_active := true }))
        (uploadCompute (load_versions initState)
          { version := "1.1", download_url := "game-v1.1.zip", release_notes := "",
            file_size := 1, release_date := "t2", is_active := true }))).any
      (fun r => r.version == "1.0") = false ∧
    (load_versions (applyOps initState
        [Op.upload true "a.zip" [1] "1.0" "" "game" "t1" true,
         Op.upload true "b.zip" [1] "1.1" "" "game" "t2" true])).any
      (fun r => r.version == "1.0") = true := by decide

/-- C7 (amended): the catalog replace is an unsynchronized in-place write;
when two mutations' load-compute-replace cycles interleave so that both
load the same base catalog, the second save overwrites the first and the
first upload's entry is absent from the final catalog, whereas the
serialized execution (the second mutation loading after the first's save)
retains it. -/
theorem C7_lost_update (st : ServerState) (r1 r2 : Release)
    (h1 : ∀ r ∈ load_versions st, r.version ≠ r1.version)
    (h2 : r1.version ≠ r2.version) :
    (∀ r ∈ load_versions (save_versions (save_versions st
        (uploadCompute (load_versions st) r1))
        (uploadCompute (load_versions st) r2)), r.version ≠ r1.version) ∧
    (∃ r ∈ load_versions (save_versions (save_versions st
        (uploadCompute (load_versions st) r1))
        (uploadCompute (load_versions (save_versions st
          (uploadCompute (load_versions st) r1))) r2)),
      r.version = r1.version) := by
  constructor
  · intro r hr
    rw [load_versions_save_versions] at hr
    simp only [uploadCompute, List.mem_append, List.mem_singleton] at hr
    rcases hr with hr | hr
    · simp only [deactivateAll, List.mem_map, List.mem_filter] at hr
      obtain ⟨b, ⟨hbmem, _⟩, rfl⟩ := hr
      exact h1 b hbmem
    · rw [hr]
      exact fun h => h2 h.symm
  · refine ⟨{ r1 with is_active := false }, ?_, rfl⟩
    rw [load_versions_save_versions, load_versions_save_versions]
    simp only [uploadCompute, List.mem_append]
    left
    simp only [deactivateAll, List.mem_map]
    refine ⟨r1, ?_, rfl⟩
    rw [List.mem_filter]
    constructor
    · simp [uploadCompute]
    · simpa using h2

/-- Witness for C7 at a concrete interleaving of two uploads on the empty
catalog: the sole entry of the interleaved schedule's final catalog (the
1.1 release) does not carry the lost upload's version. -/
theorem C7_lost_update_witness : rel11.version ≠ rel10.version :=
  (C7_lost_update initState rel10 rel11 (by decide) (by decide)).1 rel11 (by decide)

/-- Witness for C4 at a concrete state: version 1.1 is present on both
channels, version 9.9 on neither. -/
theorem C4_activate_idempotent_witness :
    ((activate_version exState "1.1").1 = Resp.ok ∧
      activate_version (activate_version exState "1.1").2 "1.1" =
        (Resp.ok, (activate_version exState "1.1").2)) ∧
    (activate_version exState "9.9" = (Resp.notFound ("Version " ++ "9.9" ++ " not found"), exState)) ∧
    ((activate_launcher_version exState "1.1").1 = Resp.ok ∧
      activate_launcher_version (activate_launcher_version exState "1.1").2 "1.1" =
        (Resp.ok, (activate_launcher_version exState "1.1").2)) ∧
    (activate_launcher_version exState "9.9" =
      (Resp.notFound ("Launcher version " ++ "9.9" ++ " not found"), exState)) :=
  ⟨(C4_activate_idempotent exState "1.1").1 (by decide),
   (C4_activate_idempotent exState "9.9").2.1 (by decide),
   (C4_activate_idempotent exState "1.1").2.2.1 (by decide),
   (C4_activate_idempotent exState "9.9").2.2.2 (by decide)⟩

end Server
